import Mathlib

/-!
Verification of the benchmark harness in `src/python/benchmark.py`.

The program compares two ways of computing mean, median and sample variance of
`fare_amount` grouped by `passenger_count`:
* the Local-Compute Path (`benchmark_pandas_approach`): load a CSV, group with
  pandas, aggregate locally;
* the Remote-Aggregation Path (`benchmark_clickhouse_approach`): send one
  `SELECT ... avg, quantile(0.5), varSamp ... GROUP BY ... ORDER BY` query to
  ClickHouse and materialize the small result.

Numbers are embedded as `ℚ` (exact rationals standing for the float values),
machine durations as `ℚ` inputs supplied per iteration, and Python exceptions
as `Except String`.
-/

namespace Benchmark

/-- One CSV record. `passenger_count` is the group key, `fare_amount` the
aggregated value; `extra` stands for the remaining CSV columns that are present
when `usecols` is not passed to `pd.read_csv` (benchmark.py lines 59-62). -/
structure Row where
  passenger_count : Int
  fare_amount : ℚ
  extra : List ℚ
deriving DecidableEq, Repr

/-- The dataset of the spec's scenario:
rows (1, 10.0), (1, 20.0), (2, 15.0). -/
def demoRows : List Row :=
  [⟨1, 10, []⟩, ⟨1, 20, []⟩, ⟨2, 15, []⟩]

/-- pandas `mean` of a column: sum divided by count. -/
def pdMean (l : List ℚ) : ℚ := l.sum / l.length

/-- pandas `median` of a column: sort the values; for odd count take the middle
element, for even count the average of the two middle elements. -/
def pdMedian (l : List ℚ) : ℚ :=
  let s := l.insertionSort (· ≤ ·)
  let n := s.length
  if n % 2 = 1 then s.getD (n / 2) 0
  else (s.getD (n / 2 - 1) 0 + s.getD (n / 2) 0) / 2

/-- pandas `var` of a column: sample variance with denominator n − 1
(pandas default `ddof=1`), NaN when the group has fewer than 2 rows.
NaN is embedded as `none`. -/
def pdVar (l : List ℚ) : Option ℚ :=
  if l.length < 2 then none
  else some ((l.map fun x => (x - pdMean l) ^ 2).sum / ((l.length : ℚ) - 1))

/-- One row of the aggregation result, with the column names set in
benchmark.py lines 67-69: `passenger_count, mean_fare, median_fare,
variance_fare`. -/
structure AggRow where
  key : Int
  mean_fare : ℚ
  median_fare : ℚ
  variance_fare : Option ℚ
deriving DecidableEq, Repr

/-- The `fare_amount` values of the group with key `k`
(`df.groupby('passenger_count')['fare_amount']`). -/
def groupValues (rows : List Row) (k : Int) : List ℚ :=
  (rows.filter fun r => r.passenger_count = k).map Row.fare_amount

/-- The distinct group keys in ascending order; pandas `groupby` sorts group
keys ascending by default. -/
def sortedKeys (rows : List Row) : List Int :=
  ((rows.map Row.passenger_count).dedup).insertionSort (· ≤ ·)

/-- The compute phase of the Local-Compute Path (benchmark.py lines 66-69):
`df.groupby('passenger_count')['fare_amount'].agg(['mean', 'median', 'var'])`,
columns renamed and the index reset, producing one row per distinct
`passenger_count` in ascending key order. -/
def pandasCompute (rows : List Row) : List AggRow :=
  (sortedKeys rows).map fun k =>
    ⟨k, pdMean (groupValues rows k), pdMedian (groupValues rows k),
      pdVar (groupValues rows k)⟩

/-- Modelled from the spec: the remote engine's `avg` aggregate (the engine
itself is an external collaborator, not part of src/). -/
def chAvg (l : List ℚ) : ℚ := l.sum / l.length

/-- Modelled from the spec: the remote engine's `quantile(0.5)` aggregate, the
exact interpolated quantile at level 0.5 of the sorted values (the engine's
reservoir interpolation with all values inside the reservoir): target index
0.5·(n−1); an integral index selects that element, a half-integral index the
average of its two neighbours. -/
def chQuantileHalf (l : List ℚ) : ℚ :=
  let s := l.insertionSort (· ≤ ·)
  let n := s.length
  if (n - 1) % 2 = 0 then s.getD ((n - 1) / 2) 0
  else (s.getD ((n - 1) / 2) 0 + s.getD ((n - 1) / 2 + 1) 0) / 2

/-- Modelled from the spec: the remote engine's `varSamp` aggregate, sample
variance via moments (Σx² − (Σx)²/n)/(n − 1), NaN (here `none`) for n < 2. -/
def chVarSamp (l : List ℚ) : Option ℚ :=
  if l.length < 2 then none
  else some (((l.map fun x => x ^ 2).sum - l.sum ^ 2 / l.length) /
    ((l.length : ℚ) - 1))

/-- Modelled from the spec: the result set of the query in benchmark.py lines
117-126 — `avg`, `quantile(0.5)`, `varSamp` of `fare_amount`, `GROUP BY
passenger_count ORDER BY passenger_count` — over the remote table holding the
same rows. -/
def clickhouseQueryResult (table : List Row) : List AggRow :=
  (((table.map Row.passenger_count).dedup).insertionSort (· ≤ ·)).map fun k =>
    ⟨k, chAvg ((table.filter fun r => r.passenger_count = k).map Row.fare_amount),
      chQuantileHalf ((table.filter fun r => r.passenger_count = k).map Row.fare_amount),
      chVarSamp ((table.filter fun r => r.passenger_count = k).map Row.fare_amount)⟩

/-- Observable effects of a benchmark run, in execution order: warmup load and
aggregation, per-iteration load/compute (pandas) or query/DataFrame build
(ClickHouse), the output-file write, and a raised exception during a measured
load or query. -/
inductive Ev where
  | warmLoad : Ev
  | warmAgg : Ev
  | warmQuery : Ev
  | load : Nat → Ev
  | compute : Nat → Ev
  | query : Nat → Ev
  | buildFrame : Nat → Ev
  | writeOut : Ev
  | loadFail : Nat → Ev
  | queryFail : Nat → Ev
deriving DecidableEq, Repr

/-- The iteration index an event belongs to (0 for run-level events). -/
def evIndex : Ev → Nat
  | Ev.load i => i
  | Ev.compute i => i
  | Ev.query i => i
  | Ev.buildFrame i => i
  | Ev.loadFail i => i
  | Ev.queryFail i => i
  | _ => 0

/-- Events of the pandas warmup loop (benchmark.py lines 44-52): each warmup
iteration loads the CSV and aggregates, records nothing and writes nothing. -/
def pandasWarmTrace (warmup : Nat) : List Ev :=
  (List.range warmup).flatMap fun _ => [Ev.warmLoad, Ev.warmAgg]

/-- Events of measured pandas iteration `i` (benchmark.py lines 56-81): load,
compute, and — only when `i == iterations - 1` — the `to_csv` write. -/
def pandasIterTrace (iterations i : Nat) : List Ev :=
  [Ev.load i, Ev.compute i] ++ if i + 1 = iterations then [Ev.writeOut] else []

/-- Events of the ClickHouse warmup loop (benchmark.py lines 134-138). -/
def chWarmTrace (warmup : Nat) : List Ev :=
  (List.range warmup).flatMap fun _ => [Ev.warmQuery]

/-- Events of measured ClickHouse iteration `i` (benchmark.py lines 142-157):
query, DataFrame construction, and the `to_csv` write only on the last
iteration. -/
def chIterTrace (iterations i : Nat) : List Ev :=
  [Ev.query i, Ev.buildFrame i] ++ if i + 1 = iterations then [Ev.writeOut] else []

/-- Python `min` over a nonempty list (the empty case is unreachable where this
is used: the caller guards on a nonempty sample list). -/
def listMin : List ℚ → ℚ
  | [] => 0
  | x :: xs => xs.foldl min x

/-- Python `max` over a nonempty list (empty case unreachable, as for
`listMin`). -/
def listMax : List ℚ → ℚ
  | [] => 0
  | x :: xs => xs.foldl max x

/-- The dictionary returned by `benchmark_pandas_approach` (lines 86-103):
the three raw sample lists, their means, medians, minima and maxima, and the
final aggregation result. -/
structure PandasStats where
  load_times : List ℚ
  compute_times : List ℚ
  total_times : List ℚ
  load_mean : ℚ
  compute_mean : ℚ
  total_mean : ℚ
  load_median : ℚ
  compute_median : ℚ
  total_median : ℚ
  load_min : ℚ
  compute_min : ℚ
  total_min : ℚ
  load_max : ℚ
  compute_max : ℚ
  total_max : ℚ
  results : Option (List AggRow)
deriving DecidableEq, Repr

/-- The dictionary returned by `benchmark_clickhouse_approach`
(lines 168-186), including the backward-compatibility `mean` entry that
duplicates `query_mean`. -/
structure CHStats where
  query_times : List ℚ
  save_times : List ℚ
  total_times : List ℚ
  query_mean : ℚ
  save_mean : ℚ
  total_mean : ℚ
  query_median : ℚ
  save_median : ℚ
  total_median : ℚ
  query_min : ℚ
  save_min : ℚ
  total_min : ℚ
  query_max : ℚ
  save_max : ℚ
  total_max : ℚ
  meanCompat : ℚ
  results : Option (List AggRow)
deriving DecidableEq, Repr

/-- Summary statistics of one phase's timing samples, as computed in the
returned dictionary: `statistics.mean`, `statistics.median`, `min`, `max`.
`statistics.mean` raises `StatisticsError` on an empty sequence, which the
model surfaces as `Except.error`. -/
def summaryStats : List ℚ → Except String (ℚ × ℚ × ℚ × ℚ)
  | [] => Except.error "StatisticsError"
  | x :: xs => Except.ok (pdMean (x :: xs), pdMedian (x :: xs),
      xs.foldl min x, xs.foldl max x)

/-- The dictionary built at benchmark.py lines 86-103 from the recorded sample
lists. `statistics.mean(load_times)` (line 90) raises `StatisticsError` when
`load_times` is empty — exactly when zero iterations were measured, all three
sample lists then being empty. -/
def pandasStatsOf (rows : List Row) (lts cts tts : List ℚ) :
    Except String PandasStats :=
  match lts with
  | [] => Except.error "StatisticsError"
  | _ :: _ =>
    Except.ok ⟨lts, cts, tts,
      pdMean lts, pdMean cts, pdMean tts,
      pdMedian lts, pdMedian cts, pdMedian tts,
      listMin lts, listMin cts, listMin tts,
      listMax lts, listMax cts, listMax tts,
      some (pandasCompute rows)⟩

/-- `benchmark_pandas_approach` (benchmark.py lines 13-103). Iteration `i`'s
load and compute phases take the externally supplied times `loadT i` and
`computeT i`. The run is the trace of observable effects paired with the
returned dictionary (or the exception raised while building it). -/
def runPandas (rows : List Row) (loadT computeT : Nat → ℚ)
    (iterations warmup : Nat) : List Ev × Except String PandasStats :=
  (pandasWarmTrace warmup ++
    (List.range iterations).flatMap (pandasIterTrace iterations),
   pandasStatsOf rows ((List.range iterations).map loadT)
     ((List.range iterations).map computeT)
     ((List.range iterations).map fun i => loadT i + computeT i))

/-- The dictionary built at benchmark.py lines 168-186 from the recorded
sample lists of the ClickHouse path, `StatisticsError` on empty samples as in
`pandasStatsOf`. -/
def chStatsOf (table : List Row) (qts sts tts : List ℚ) :
    Except String CHStats :=
  match qts with
  | [] => Except.error "StatisticsError"
  | _ :: _ =>
    Except.ok ⟨qts, sts, tts,
      pdMean qts, pdMean sts, pdMean tts,
      pdMedian qts, pdMedian sts, pdMedian tts,
      listMin qts, listMin sts, listMin tts,
      listMax qts, listMax sts, listMax tts,
      pdMean qts,
      some (clickhouseQueryResult table)⟩

/-- `benchmark_clickhouse_approach` (benchmark.py lines 106-186), analogous to
`runPandas`: query and save phase durations are supplied per iteration and the
result rows come from the remote query. -/
def runClickhouse (table : List Row) (queryT saveT : Nat → ℚ)
    (iterations warmup : Nat) : List Ev × Except String CHStats :=
  (chWarmTrace warmup ++
    (List.range iterations).flatMap (chIterTrace iterations),
   chStatsOf table ((List.range iterations).map queryT)
     ((List.range iterations).map saveT)
     ((List.range iterations).map fun i => queryT i + saveT i))

/-- The measured loop of `benchmark_pandas_approach` with a fallible load:
`sched i` is the outcome of iteration `i`'s `pd.read_csv` (`Except.error` is a
raised exception). The loop body has no handler, so an exception propagates
immediately, abandoning the locally accumulated sample lists; `fuel` counts the
remaining iterations (`fuel + i = iterations` at every call). -/
def pandasLoopF (sched : Nat → Except String Unit) (loadT computeT : Nat → ℚ)
    (iterations : Nat) :
    Nat → Nat → List ℚ → List ℚ → List ℚ →
      List Ev × Except String (List ℚ × List ℚ × List ℚ)
  | 0, _, lts, cts, tts => ([], Except.ok (lts, cts, tts))
  | fuel + 1, i, lts, cts, tts =>
    match sched i with
    | Except.error e => ([Ev.loadFail i], Except.error e)
    | Except.ok _ =>
      let rest := pandasLoopF sched loadT computeT iterations fuel (i + 1)
        (lts ++ [loadT i]) (cts ++ [computeT i]) (tts ++ [loadT i + computeT i])
      (([Ev.load i, Ev.compute i] ++
          if i + 1 = iterations then [Ev.writeOut] else []) ++ rest.1,
        rest.2)

/-- The measured iterations of the pandas path when loads can fail:
`for i in range(iterations)` with the body of benchmark.py lines 56-81. -/
def runPandasF (sched : Nat → Except String Unit) (loadT computeT : Nat → ℚ)
    (iterations : Nat) : List Ev × Except String (List ℚ × List ℚ × List ℚ) :=
  pandasLoopF sched loadT computeT iterations iterations 0 [] [] []

/-- The measured loop of `benchmark_clickhouse_approach` with a fallible
query: `sched i` is the outcome of iteration `i`'s `client.query`
(`Except.error` is a raised exception, e.g. the engine being unreachable).
As in `pandasLoopF`, the loop body (benchmark.py lines 142-166) has no
handler, so an exception propagates immediately, abandoning the locally
accumulated sample lists; `fuel` counts the remaining iterations. -/
def chLoopF (sched : Nat → Except String Unit) (queryT saveT : Nat → ℚ)
    (iterations : Nat) :
    Nat → Nat → List ℚ → List ℚ → List ℚ →
      List Ev × Except String (List ℚ × List ℚ × List ℚ)
  | 0, _, qts, sts, tts => ([], Except.ok (qts, sts, tts))
  | fuel + 1, i, qts, sts, tts =>
    match sched i with
    | Except.error e => ([Ev.queryFail i], Except.error e)
    | Except.ok _ =>
      let rest := chLoopF sched queryT saveT iterations fuel (i + 1)
        (qts ++ [queryT i]) (sts ++ [saveT i]) (tts ++ [queryT i + saveT i])
      (([Ev.query i, Ev.buildFrame i] ++
          if i + 1 = iterations then [Ev.writeOut] else []) ++ rest.1,
        rest.2)

/-- The measured iterations of the ClickHouse path when queries can fail:
`for i in range(iterations)` with the body of benchmark.py lines 142-166. -/
def runClickhouseF (sched : Nat → Except String Unit) (queryT saveT : Nat → ℚ)
    (iterations : Nat) : List Ev × Except String (List ℚ × List ℚ × List ℚ) :=
  chLoopF sched queryT saveT iterations iterations 0 [] [] []

/-- The timing samples an outcome makes available to the caller: the recorded
lists on success, nothing when an exception propagated (a raised exception
carries no sample data). -/
def preservedTimes :
    Except String (List ℚ × List ℚ × List ℚ) → Option (List ℚ)
  | Except.ok r => some r.1
  | Except.error _ => none

/-- A load schedule whose second measured iteration (index 1) raises a
connection error; all other iterations succeed. -/
def schedFailAt1 : Nat → Except String Unit :=
  fun i => if i = 1 then Except.error "ConnectionError" else Except.ok ()

/-- The speedup computation of `main` (benchmark.py lines 272-273):
`pandas_stats['total_mean'] / clickhouse_stats['total_mean']`, a plain Python
division, which raises `ZeroDivisionError` when the denominator (the baseline
mean total duration) is zero. -/
def speedupRatio (candidate baseline : ℚ) : Except String ℚ :=
  if baseline = 0 then Except.error "ZeroDivisionError"
  else Except.ok (candidate / baseline)

/-- The output columns written by the pandas path: set in benchmark.py
lines 67-69 (`mean_fare, median_fare, variance_fare` after `reset_index`
restores `passenger_count`). -/
def outputColumns : List String :=
  ["passenger_count", "mean_fare", "median_fare", "variance_fare"]

/-- The output columns of the ClickHouse path (benchmark.py line 152). -/
def chOutputColumns : List String :=
  ["passenger_count", "mean_fare", "median_fare", "variance_fare"]

/-- The header row `to_csv(index=False)` writes for the pandas path. -/
def csvHeader : String := String.intercalate "," outputColumns

/-- The header row written for the ClickHouse path. -/
def chCsvHeader : String := String.intercalate "," chOutputColumns

/-- The persisted output file: header line followed by one line per result
row (`to_csv(index=False)`, benchmark.py lines 80 and 156). -/
def writeResultCsv (result : List AggRow) : String × List AggRow :=
  (csvHeader, result)

/-- `pd.read_csv` (benchmark.py lines 59-62): with `usecols` only the two
needed columns are materialized (`extra` dropped); without it all columns are
kept. -/
def stripExtra (r : Row) : Row := ⟨r.passenger_count, r.fare_amount, []⟩

/-- Loading the CSV with (`selectCols = true`) or without column selection. -/
def loadCsv (raw : List Row) (selectCols : Bool) : List Row :=
  if selectCols then raw.map stripExtra else raw

/-! ### Helper lemmas -/

/-- The interpolated quantile at level 0.5 agrees with pandas' median on every
value list: both pick the middle element (odd count) or average the two middle
elements (even count). -/
theorem chQuantileHalf_eq_pdMedian (l : List ℚ) : chQuantileHalf l = pdMedian l := by
  simp only [chQuantileHalf, pdMedian]
  set s := l.insertionSort (· ≤ ·) with hs
  rcases Nat.eq_zero_or_pos s.length with h0 | hpos
  · rw [h0]
    norm_num
  · rcases Nat.even_or_odd s.length with ⟨m, hm⟩ | ⟨m, hm⟩
    · have h1 : ¬ (s.length - 1) % 2 = 0 := by omega
      have h2 : ¬ s.length % 2 = 1 := by omega
      rw [if_neg h1, if_neg h2]
      have e1 : (s.length - 1) / 2 = s.length / 2 - 1 := by omega
      have e2 : (s.length - 1) / 2 + 1 = s.length / 2 := by omega
      rw [e2, e1]
    · have h1 : (s.length - 1) % 2 = 0 := by omega
      have h2 : s.length % 2 = 1 := by omega
      rw [if_pos h1, if_pos h2]
      have e : (s.length - 1) / 2 = s.length / 2 := by omega
      rw [e]

/-- Expanding a sum of squared deviations. -/
theorem sum_sq_dev (l : List ℚ) (c : ℚ) :
    (l.map fun x => (x - c) ^ 2).sum
      = (l.map fun x => x ^ 2).sum - 2 * c * l.sum + l.length * c ^ 2 := by
  induction l with
  | nil => simp
  | cons x xs ih =>
    simp only [List.map_cons, List.sum_cons, List.length_cons, ih]
    push_cast
    ring

/-- The engine's moment formula for sample variance agrees with pandas'
deviation formula on every value list. -/
theorem chVarSamp_eq_pdVar (l : List ℚ) : chVarSamp l = pdVar l := by
  unfold chVarSamp pdVar
  split_ifs with h
  · rfl
  · have hn : (l.length : ℚ) ≠ 0 := Nat.cast_ne_zero.mpr (by omega)
    have h1 : (1 : ℚ) < l.length := by exact_mod_cast (by omega : 1 < l.length)
    have hn1 : (l.length : ℚ) - 1 ≠ 0 := sub_ne_zero.mpr (ne_of_gt h1)
    congr 1
    rw [sum_sq_dev l (pdMean l)]
    unfold pdMean
    field_simp
    ring

/-- A left fold with `min` stays in the list (head seed included). -/
theorem foldl_min_mem : ∀ (xs : List ℚ) (x : ℚ), xs.foldl min x ∈ x :: xs := by
  intro xs
  induction xs with
  | nil => intro x; simp
  | cons y ys ih =>
    intro x
    rw [List.foldl_cons]
    rcases List.mem_cons.mp (ih (min x y)) with h' | h'
    · rw [h']
      rcases min_choice x y with hc | hc <;> rw [hc] <;> simp
    · simp [h']

/-- A left fold with `min` bounds every list element (head seed included). -/
theorem foldl_min_le : ∀ (xs : List ℚ) (x y : ℚ), y ∈ x :: xs → xs.foldl min x ≤ y := by
  intro xs
  induction xs with
  | nil =>
    intro x y hy
    rw [List.mem_singleton] at hy
    simp [hy]
  | cons z zs ih =>
    intro x y hy
    rw [List.foldl_cons]
    rcases List.mem_cons.mp hy with h1 | hy'
    · subst h1
      exact (ih (min y z) _ (List.mem_cons_self _ _)).trans (min_le_left _ _)
    · rcases List.mem_cons.mp hy' with h2 | hy''
      · subst h2
        exact (ih (min x y) _ (List.mem_cons_self _ _)).trans (min_le_right _ _)
      · exact ih (min x z) y (List.mem_cons_of_mem _ hy'')

/-- A left fold with `max` stays in the list (head seed included). -/
theorem foldl_max_mem : ∀ (xs : List ℚ) (x : ℚ), xs.foldl max x ∈ x :: xs := by
  intro xs
  induction xs with
  | nil => intro x; simp
  | cons y ys ih =>
    intro x
    rw [List.foldl_cons]
    rcases List.mem_cons.mp (ih (max x y)) with h' | h'
    · rw [h']
      rcases max_choice x y with hc | hc <;> rw [hc] <;> simp
    · simp [h']

/-- A left fold with `max` dominates every list element (head seed included). -/
theorem le_foldl_max : ∀ (xs : List ℚ) (x y : ℚ), y ∈ x :: xs → y ≤ xs.foldl max x := by
  intro xs
  induction xs with
  | nil =>
    intro x y hy
    rw [List.mem_singleton] at hy
    simp [hy]
  | cons z zs ih =>
    intro x y hy
    rw [List.foldl_cons]
    rcases List.mem_cons.mp hy with h1 | hy'
    · subst h1
      exact (le_max_left _ _).trans (ih (max y z) _ (List.mem_cons_self _ _))
    · rcases List.mem_cons.mp hy' with h2 | hy''
      · subst h2
        exact (le_max_right _ _).trans (ih (max x y) _ (List.mem_cons_self _ _))
      · exact ih (max x z) y (List.mem_cons_of_mem _ hy'')

/-- Pointwise sums of two maps over the same index list form a `zipWith`. -/
theorem map_add_eq_zipWith (f g : Nat → ℚ) (l : List Nat) :
    l.map (fun i => f i + g i) = List.zipWith (· + ·) (l.map f) (l.map g) := by
  induction l with
  | nil => rfl
  | cons a t ih =>
    rw [List.map_cons, List.map_cons, List.map_cons, List.zipWith_cons_cons, ih]

set_option maxRecDepth 8000

set_option maxHeartbeats 1000000

/-- With at least one measured iteration, `runPandas` returns the full
dictionary: raw sample lists, their summary statistics, and the final
aggregation result. -/
theorem runPandas_snd (rows : List Row) (lT cT : Nat → ℚ) (iters warm : Nat)
    (h : 1 ≤ iters) :
    (runPandas rows lT cT iters warm).2 = Except.ok
      ⟨(List.range iters).map lT, (List.range iters).map cT,
        (List.range iters).map (fun i => lT i + cT i),
        pdMean ((List.range iters).map lT), pdMean ((List.range iters).map cT),
        pdMean ((List.range iters).map fun i => lT i + cT i),
        pdMedian ((List.range iters).map lT), pdMedian ((List.range iters).map cT),
        pdMedian ((List.range iters).map fun i => lT i + cT i),
        listMin ((List.range iters).map lT), listMin ((List.range iters).map cT),
        listMin ((List.range iters).map fun i => lT i + cT i),
        listMax ((List.range iters).map lT), listMax ((List.range iters).map cT),
        listMax ((List.range iters).map fun i => lT i + cT i),
        some (pandasCompute rows)⟩ := by
  have hne : (List.range iters).map lT ≠ [] := by
    simp only [ne_eq, List.map_eq_nil_iff, List.range_eq_nil]
    omega
  obtain ⟨x, xs, hx⟩ := List.exists_cons_of_ne_nil hne
  have h2 : (runPandas rows lT cT iters warm).2
      = pandasStatsOf rows ((List.range iters).map lT)
        ((List.range iters).map cT)
        ((List.range iters).map fun i => lT i + cT i) := rfl
  rw [h2, hx]
  rfl

/-- With at least one measured iteration, `runClickhouse` returns the full
dictionary. -/
theorem runClickhouse_snd (table : List Row) (qT sT : Nat → ℚ) (iters warm : Nat)
    (h : 1 ≤ iters) :
    (runClickhouse table qT sT iters warm).2 = Except.ok
      ⟨(List.range iters).map qT, (List.range iters).map sT,
        (List.range iters).map (fun i => qT i + sT i),
        pdMean ((List.range iters).map qT), pdMean ((List.range iters).map sT),
        pdMean ((List.range iters).map fun i => qT i + sT i),
        pdMedian ((List.range iters).map qT), pdMedian ((List.range iters).map sT),
        pdMedian ((List.range iters).map fun i => qT i + sT i),
        listMin ((List.range iters).map qT), listMin ((List.range iters).map sT),
        listMin ((List.range iters).map fun i => qT i + sT i),
        listMax ((List.range iters).map qT), listMax ((List.range iters).map sT),
        listMax ((List.range iters).map fun i => qT i + sT i),
        pdMean ((List.range iters).map qT),
        some (clickhouseQueryResult table)⟩ := by
  have hne : (List.range iters).map qT ≠ [] := by
    simp only [ne_eq, List.map_eq_nil_iff, List.range_eq_nil]
    omega
  obtain ⟨x, xs, hx⟩ := List.exists_cons_of_ne_nil hne
  have h2 : (runClickhouse table qT sT iters warm).2
      = chStatsOf table ((List.range iters).map qT)
        ((List.range iters).map sT)
        ((List.range iters).map fun i => qT i + sT i) := rfl
  rw [h2, hx]
  rfl

/-- Occurrence count inside a `flatMap` is the sum of per-chunk counts. -/
theorem count_flatMap (l : List Nat) (f : Nat → List Ev) (b : Ev) :
    (l.flatMap f).count b = (l.map fun a => (f a).count b).sum := by
  induction l with
  | nil => rfl
  | cons a t ih => simp [List.flatMap_cons, List.count_append, ih]

/-- Summing the last-iteration indicator over `range n` gives 1 when the loop
runs at all. -/
theorem range_indicator_sum (n : Nat) :
    ((List.range n).map fun i => if i + 1 = n then 1 else 0).sum
      = if 1 ≤ n then 1 else 0 := by
  cases n with
  | zero => rfl
  | succ m =>
    rw [List.range_succ, List.map_append, List.sum_append]
    have h0 : ((List.range m).map fun i => if i + 1 = m + 1 then 1 else 0).sum
        = 0 := by
      apply List.sum_eq_zero
      intro x hx
      simp only [List.mem_map, List.mem_range] at hx
      obtain ⟨i, hi, rfl⟩ := hx
      rw [if_neg (by omega)]
    rw [h0]
    simp

/-- A measured pandas iteration writes the output exactly when it is the last
one. -/
theorem pandasIterTrace_count (iters i : Nat) :
    (pandasIterTrace iters i).count Ev.writeOut
      = if i + 1 = iters then 1 else 0 := by
  unfold pandasIterTrace
  split_ifs with hi <;> simp [List.count_append, List.count_cons]

/-- A measured ClickHouse iteration writes the output exactly when it is the
last one. -/
theorem chIterTrace_count (iters i : Nat) :
    (chIterTrace iters i).count Ev.writeOut
      = if i + 1 = iters then 1 else 0 := by
  unfold chIterTrace
  split_ifs with hi <;> simp [List.count_append, List.count_cons]

/-- The measured pandas loop writes the output file exactly once. -/
theorem pandas_meas_write_once (iters : Nat) (h : 1 ≤ iters) :
    ((List.range iters).flatMap (pandasIterTrace iters)).count Ev.writeOut = 1 := by
  rw [count_flatMap,
    List.map_congr_left fun i _ => pandasIterTrace_count iters i,
    range_indicator_sum, if_pos h]

/-- The measured ClickHouse loop writes the output file exactly once. -/
theorem ch_meas_write_once (iters : Nat) (h : 1 ≤ iters) :
    ((List.range iters).flatMap (chIterTrace iters)).count Ev.writeOut = 1 := by
  rw [count_flatMap,
    List.map_congr_left fun i _ => chIterTrace_count iters i,
    range_indicator_sum, if_pos h]

/-- The pandas warmup loop never writes the output file. -/
theorem pandas_warm_no_write (warm : Nat) : Ev.writeOut ∉ pandasWarmTrace warm := by
  unfold pandasWarmTrace
  simp [List.mem_flatMap]

/-- The ClickHouse warmup loop never writes the output file. -/
theorem ch_warm_no_write (warm : Nat) : Ev.writeOut ∉ chWarmTrace warm := by
  unfold chWarmTrace
  simp [List.mem_flatMap]

/-- The last event of the measured pandas loop is the output write. -/
theorem pandas_meas_getLast (iters : Nat) (h : 1 ≤ iters) :
    ((List.range iters).flatMap (pandasIterTrace iters)).getLast?
      = some Ev.writeOut := by
  obtain ⟨m, rfl⟩ : ∃ m, iters = m + 1 := ⟨iters - 1, by omega⟩
  rw [List.range_succ, List.flatMap_append,
    List.getLast?_append_of_ne_nil _ (by simp [pandasIterTrace])]
  simp [pandasIterTrace]

/-- The last event of the measured ClickHouse loop is the output write. -/
theorem ch_meas_getLast (iters : Nat) (h : 1 ≤ iters) :
    ((List.range iters).flatMap (chIterTrace iters)).getLast?
      = some Ev.writeOut := by
  obtain ⟨m, rfl⟩ : ∃ m, iters = m + 1 := ⟨iters - 1, by omega⟩
  rw [List.range_succ, List.flatMap_append,
    List.getLast?_append_of_ne_nil _ (by simp [chIterTrace])]
  simp [chIterTrace]

/-- If iteration `j` of the measured loop raises and all earlier iterations
succeed, the loop's outcome is that raw exception and its trace stops at
iteration `j`: no event of a later iteration and no output write occurs.
The accumulated sample lists are discarded with the error. -/
theorem pandasLoopF_error_shape (sched : Nat → Except String Unit)
    (lT cT : Nat → ℚ) (iters j : Nat) (e : String)
    (he : sched j = Except.error e) :
    ∀ fuel i lts cts tts, fuel + i = iters → i ≤ j → j < iters →
      (∀ m, i ≤ m → m < j → sched m = Except.ok ()) →
      (pandasLoopF sched lT cT iters fuel i lts cts tts).2 = Except.error e ∧
      ∀ ev ∈ (pandasLoopF sched lT cT iters fuel i lts cts tts).1,
        evIndex ev ≤ j ∧ ev ≠ Ev.writeOut := by
  intro fuel
  induction fuel with
  | zero =>
    intro i lts cts tts hfi hij hji hok
    omega
  | succ f ih =>
    intro i lts cts tts hfi hij hji hok
    by_cases hieq : i = j
    · subst hieq
      simp only [pandasLoopF, he]
      refine ⟨by first | rfl | trivial, ?_⟩
      intro ev hev
      rw [List.mem_singleton] at hev
      subst hev
      simp [evIndex]
    · have h1 : i < j := by omega
      have hsi : sched i = Except.ok () := hok i le_rfl h1
      have hne : i + 1 ≠ iters := by omega
      simp only [pandasLoopF, hsi, if_neg hne, List.append_nil]
      have hrec := ih (i + 1) (lts ++ [lT i]) (cts ++ [cT i])
        (tts ++ [lT i + cT i]) (by omega) (by omega) hji
        (fun m hm1 hm2 => hok m (by omega) hm2)
      refine ⟨hrec.1, ?_⟩
      intro ev hev
      rw [List.mem_append] at hev
      rcases hev with hev | hev
      · rw [List.mem_cons] at hev
        rcases hev with rfl | hev
        · exact ⟨by simp [evIndex]; omega, by simp⟩
        · rw [List.mem_singleton] at hev
          subst hev
          exact ⟨by simp [evIndex]; omega, by simp⟩
      · exact hrec.2 ev hev

/-- If iteration `j` of the measured ClickHouse loop raises and all earlier
iterations succeed, the loop's outcome is that raw exception and its trace
stops at iteration `j`: no event of a later iteration and no output write
occurs. The accumulated sample lists are discarded with the error. -/
theorem chLoopF_error_shape (sched : Nat → Except String Unit)
    (qT sT : Nat → ℚ) (iters j : Nat) (e : String)
    (he : sched j = Except.error e) :
    ∀ fuel i qts sts tts, fuel + i = iters → i ≤ j → j < iters →
      (∀ m, i ≤ m → m < j → sched m = Except.ok ()) →
      (chLoopF sched qT sT iters fuel i qts sts tts).2 = Except.error e ∧
      ∀ ev ∈ (chLoopF sched qT sT iters fuel i qts sts tts).1,
        evIndex ev ≤ j ∧ ev ≠ Ev.writeOut := by
  intro fuel
  induction fuel with
  | zero =>
    intro i qts sts tts hfi hij hji hok
    omega
  | succ f ih =>
    intro i qts sts tts hfi hij hji hok
    by_cases hieq : i = j
    · subst hieq
      simp only [chLoopF, he]
      refine ⟨by first | rfl | trivial, ?_⟩
      intro ev hev
      rw [List.mem_singleton] at hev
      subst hev
      simp [evIndex]
    · have h1 : i < j := by omega
      have hsi : sched i = Except.ok () := hok i le_rfl h1
      have hne : i + 1 ≠ iters := by omega
      simp only [chLoopF, hsi, if_neg hne, List.append_nil]
      have hrec := ih (i + 1) (qts ++ [qT i]) (sts ++ [sT i])
        (tts ++ [qT i + sT i]) (by omega) (by omega) hji
        (fun m hm1 hm2 => hok m (by omega) hm2)
      refine ⟨hrec.1, ?_⟩
      intro ev hev
      rw [List.mem_append] at hev
      rcases hev with hev | hev
      · rw [List.mem_cons] at hev
        rcases hev with rfl | hev
        · exact ⟨by simp [evIndex]; omega, by simp⟩
        · rw [List.mem_singleton] at hev
          subst hev
          exact ⟨by simp [evIndex]; omega, by simp⟩
      · exact hrec.2 ev hev

/-- `listMin` of a nonempty list is one of its elements. -/
theorem listMin_mem : ∀ (l : List ℚ), l ≠ [] → listMin l ∈ l
  | [], h => absurd rfl h
  | x :: xs, _ => foldl_min_mem xs x

/-- `listMin` is a lower bound of the list. -/
theorem listMin_le : ∀ (l : List ℚ), ∀ y ∈ l, listMin l ≤ y
  | [], y, hy => absurd hy (List.not_mem_nil y)
  | _ :: xs, y, hy => foldl_min_le xs _ y hy

/-- `listMax` of a nonempty list is one of its elements. -/
theorem listMax_mem : ∀ (l : List ℚ), l ≠ [] → listMax l ∈ l
  | [], h => absurd rfl h
  | x :: xs, _ => foldl_max_mem xs x

/-- `listMax` is an upper bound of the list. -/
theorem le_listMax : ∀ (l : List ℚ), ∀ y ∈ l, y ≤ listMax l
  | [], y, hy => absurd hy (List.not_mem_nil y)
  | _ :: xs, y, hy => le_foldl_max xs _ y hy

/-- `pd.read_csv` with column selection only drops unused columns. -/
theorem groupValues_map_stripExtra (l : List Row) (k : Int) :
    groupValues (l.map stripExtra) k = groupValues l k := by
  induction l with
  | nil => rfl
  | cons r rs ih =>
    simp only [groupValues, List.map_cons, List.filter_cons] at ih ⊢
    simp only [stripExtra]
    by_cases hpc : r.passenger_count = k
    · simp [hpc, ih]
    · simp [hpc, ih]

/-! ### Claims -/

/-- Claim C1: the compute phase groups rows by `passenger_count` and returns,
per group in ascending key order, the arithmetic mean, the median, and the
sample variance (denominator n − 1) of `fare_amount`, with the variance of a
group of fewer than 2 rows surfaced as undefined (`none`), never coerced to 0;
on the dataset {(1,10),(1,20),(2,15)} it returns
[(1, 15, 15, 50), (2, 15, 15, undefined)]. -/
theorem C1_local_compute_aggregation :
    pandasCompute demoRows
      = [⟨1, 15, 15, some 50⟩, ⟨2, 15, 15, none⟩] ∧
    (∀ l : List ℚ, pdVar l = none ↔ l.length < 2) ∧
    ∀ rows : List Row, (pandasCompute rows).map AggRow.key = sortedKeys rows := by
  refine ⟨?_, ?_, ?_⟩
  · have hk : sortedKeys demoRows = [1, 2] := by decide
    have hg1 : groupValues demoRows 1 = [10, 20] := rfl
    have hg2 : groupValues demoRows 2 = [15] := rfl
    unfold pandasCompute
    rw [hk]
    simp only [List.map_cons, List.map_nil]
    rw [hg1, hg2]
    norm_num [pdMean, pdMedian, pdVar, List.insertionSort, List.orderedInsert,
      List.getD]
  · intro l
    unfold pdVar
    split_ifs with hl
    · simp [hl]
    · simp [hl]
  · intro rows
    unfold pandasCompute
    rw [List.map_map]
    exact List.map_id _

/-- Claim C2: for a fixed dataset available to both paths, the Local-Compute
Path's aggregation and the Remote-Aggregation Path's query result are equal
row-for-row in ascending group-key order (exactly over `ℚ`, hence within any
floating-point tolerance). -/
theorem C2_cross_path_equivalence (rows : List Row) :
    clickhouseQueryResult rows = pandasCompute rows := by
  unfold clickhouseQueryResult pandasCompute sortedKeys groupValues
  refine List.map_congr_left fun k _ => ?_
  rw [chQuantileHalf_eq_pdMedian, chVarSamp_eq_pdVar]
  rfl

/-- Claim C3: a run of either path records exactly `iterations` timing samples
per phase — warmup iterations (any `warm ≥ 0`) contribute none. -/
theorem C3_iteration_sample_counts (rows : List Row) (lT cT qT sT : Nat → ℚ)
    (iters warm : Nat) (h : 1 ≤ iters) :
    (∃ s : PandasStats, (runPandas rows lT cT iters warm).2 = Except.ok s ∧
      s.load_times.length = iters ∧ s.compute_times.length = iters ∧
      s.total_times.length = iters) ∧
    ∃ c : CHStats, (runClickhouse rows qT sT iters warm).2 = Except.ok c ∧
      c.query_times.length = iters ∧ c.save_times.length = iters ∧
      c.total_times.length = iters := by
  refine ⟨⟨_, runPandas_snd rows lT cT iters warm h, ?_, ?_, ?_⟩,
    ⟨_, runClickhouse_snd rows qT sT iters warm h, ?_, ?_, ?_⟩⟩ <;> simp

/-- Witness for C3 at `iters = 2`, `warm = 3`. -/
theorem C3_iteration_sample_counts_witness :
    (1 : Nat) ≤ 2 ∧
    ((∃ s : PandasStats,
        (runPandas demoRows (fun _ => 1) (fun _ => 2) 2 3).2 = Except.ok s ∧
        s.load_times.length = 2 ∧ s.compute_times.length = 2 ∧
        s.total_times.length = 2) ∧
      ∃ c : CHStats,
        (runClickhouse demoRows (fun _ => 1) (fun _ => 2) 2 3).2 = Except.ok c ∧
        c.query_times.length = 2 ∧ c.save_times.length = 2 ∧
        c.total_times.length = 2) :=
  ⟨by decide,
    C3_iteration_sample_counts demoRows (fun _ => 1) (fun _ => 2) (fun _ => 1)
      (fun _ => 2) 2 3 (by decide)⟩

/-- Claim C5: in every run with at least one measured iteration, each path's
trace contains exactly one output write, it is the final event (so it happens
on the last measured iteration), warmup iterations never write, and a measured
iteration other than the last never writes. -/
theorem C5_write_only_on_last_iteration (rows : List Row) (lT cT qT sT : Nat → ℚ)
    (iters warm : Nat) (h : 1 ≤ iters) :
    (runPandas rows lT cT iters warm).1.count Ev.writeOut = 1 ∧
    (runPandas rows lT cT iters warm).1.getLast? = some Ev.writeOut ∧
    Ev.writeOut ∉ pandasWarmTrace warm ∧
    (∀ i, i + 1 ≠ iters → Ev.writeOut ∉ pandasIterTrace iters i) ∧
    (runClickhouse rows qT sT iters warm).1.count Ev.writeOut = 1 ∧
    (runClickhouse rows qT sT iters warm).1.getLast? = some Ev.writeOut ∧
    Ev.writeOut ∉ chWarmTrace warm ∧
    ∀ i, i + 1 ≠ iters → Ev.writeOut ∉ chIterTrace iters i := by
  have hp1 : (runPandas rows lT cT iters warm).1
      = pandasWarmTrace warm ++
        (List.range iters).flatMap (pandasIterTrace iters) := rfl
  have hc1 : (runClickhouse rows qT sT iters warm).1
      = chWarmTrace warm ++
        (List.range iters).flatMap (chIterTrace iters) := rfl
  have hpne : (List.range iters).flatMap (pandasIterTrace iters) ≠ [] := by
    intro h0
    have hcount := pandas_meas_write_once iters h
    rw [h0] at hcount
    simp at hcount
  have hcne : (List.range iters).flatMap (chIterTrace iters) ≠ [] := by
    intro h0
    have hcount := ch_meas_write_once iters h
    rw [h0] at hcount
    simp at hcount
  refine ⟨?_, ?_, pandas_warm_no_write warm, ?_, ?_, ?_, ch_warm_no_write warm, ?_⟩
  · rw [hp1, List.count_append,
      List.count_eq_zero.mpr (pandas_warm_no_write warm),
      pandas_meas_write_once iters h]
  · rw [hp1, List.getLast?_append_of_ne_nil _ hpne, pandas_meas_getLast iters h]
  · intro i hi
    unfold pandasIterTrace
    rw [if_neg hi]
    simp
  · rw [hc1, List.count_append,
      List.count_eq_zero.mpr (ch_warm_no_write warm),
      ch_meas_write_once iters h]
  · rw [hc1, List.getLast?_append_of_ne_nil _ hcne, ch_meas_getLast iters h]
  · intro i hi
    unfold chIterTrace
    rw [if_neg hi]
    simp

/-- Witness for C5 at `iters = 2`, `warm = 3`. -/
theorem C5_write_only_on_last_iteration_witness :
    (1 : Nat) ≤ 2 ∧
    ((runPandas demoRows (fun _ => 1) (fun _ => 2) 2 3).1.count Ev.writeOut = 1 ∧
      (runPandas demoRows (fun _ => 1) (fun _ => 2) 2 3).1.getLast?
        = some Ev.writeOut ∧
      Ev.writeOut ∉ pandasWarmTrace 3 ∧
      (∀ i, i + 1 ≠ 2 → Ev.writeOut ∉ pandasIterTrace 2 i) ∧
      (runClickhouse demoRows (fun _ => 1) (fun _ => 2) 2 3).1.count Ev.writeOut
        = 1 ∧
      (runClickhouse demoRows (fun _ => 1) (fun _ => 2) 2 3).1.getLast?
        = some Ev.writeOut ∧
      Ev.writeOut ∉ chWarmTrace 3 ∧
      ∀ i, i + 1 ≠ 2 → Ev.writeOut ∉ chIterTrace 2 i) :=
  ⟨by decide,
    C5_write_only_on_last_iteration demoRows (fun _ => 1) (fun _ => 2)
      (fun _ => 1) (fun _ => 2) 2 3 (by decide)⟩

/-- Claim C8: the summary statistics over each phase's recorded samples are
the arithmetic mean (sum over count), the median, the minimum and the maximum
of that sample list, plus a sum-of-phases total series; on samples
[10, 20, 30] they are mean 20, median 20, min 10, max 30. -/
theorem C8_summary_statistics (rows : List Row) (lT cT : Nat → ℚ)
    (iters warm : Nat) (h : 1 ≤ iters) :
    (∃ s : PandasStats, (runPandas rows lT cT iters warm).2 = Except.ok s ∧
      s.load_mean = pdMean s.load_times ∧
      s.load_median = pdMedian s.load_times ∧
      s.load_min ∈ s.load_times ∧ (∀ y ∈ s.load_times, s.load_min ≤ y) ∧
      s.load_max ∈ s.load_times ∧ (∀ y ∈ s.load_times, y ≤ s.load_max) ∧
      s.total_times = List.zipWith (· + ·) s.load_times s.compute_times) ∧
    summaryStats [10, 20, 30] = Except.ok (20, 20, 10, 30) := by
  have hne : (List.range iters).map lT ≠ [] := by
    simp only [ne_eq, List.map_eq_nil_iff, List.range_eq_nil]
    omega
  constructor
  · refine ⟨_, runPandas_snd rows lT cT iters warm h, rfl, rfl,
      listMin_mem _ hne, listMin_le _, listMax_mem _ hne, le_listMax _,
      map_add_eq_zipWith lT cT (List.range iters)⟩
  · norm_num [summaryStats, pdMean, pdMedian, List.insertionSort,
      List.orderedInsert, List.getD, min_def, max_def]

/-- Witness for C8 at `iters = 2`, `warm = 3`. -/
theorem C8_summary_statistics_witness :
    (1 : Nat) ≤ 2 ∧
    ((∃ s : PandasStats,
        (runPandas demoRows (fun _ => 1) (fun _ => 2) 2 3).2 = Except.ok s ∧
        s.load_mean = pdMean s.load_times ∧
        s.load_median = pdMedian s.load_times ∧
        s.load_min ∈ s.load_times ∧ (∀ y ∈ s.load_times, s.load_min ≤ y) ∧
        s.load_max ∈ s.load_times ∧ (∀ y ∈ s.load_times, y ≤ s.load_max) ∧
        s.total_times = List.zipWith (· + ·) s.load_times s.compute_times) ∧
      summaryStats [10, 20, 30] = Except.ok (20, 20, 10, 30)) :=
  ⟨by decide,
    C8_summary_statistics demoRows (fun _ => 1) (fun _ => 2) 2 3 (by decide)⟩

/-- Claim C10: loading with `usecols=['fare_amount', 'passenger_count']` and
loading all columns give element-wise equal aggregation results — column
selection changes only the load, never the computed aggregates. -/
theorem C10_column_selection_irrelevant (raw : List Row) :
    pandasCompute (loadCsv raw true) = pandasCompute (loadCsv raw false) := by
  have hsel : loadCsv raw true = raw.map stripExtra := rfl
  have hfull : loadCsv raw false = raw := rfl
  rw [hsel, hfull]
  have hkeys : sortedKeys (raw.map stripExtra) = sortedKeys raw := by
    unfold sortedKeys
    rw [List.map_map]
    rfl
  unfold pandasCompute
  rw [hkeys]
  refine List.map_congr_left fun k _ => ?_
  rw [groupValues_map_stripExtra]

/-- Counterexample to claim C4: with `iterations = 0` and one warmup
iteration, the run does fail — but its trace already contains the warmup load
and aggregation, so the failure is not detected eagerly before any path work
executes, and the error is the summary-statistics `StatisticsError`, not an
eager `InvalidConfiguration` check. -/
theorem C4_counterexample :
    (runPandas demoRows (fun _ => 1) (fun _ => 1) 0 1).2
      = Except.error "StatisticsError" ∧
    (runPandas demoRows (fun _ => 1) (fun _ => 1) 0 1).1
      = [Ev.warmLoad, Ev.warmAgg] := ⟨rfl, rfl⟩

/-- Claim C4 as amended: with `iterations = 0` the run fails with the
`StatisticsError` raised when the summary statistics are computed over the
empty sample sequence — but only after the warmup iterations have executed the
full path (the trace is exactly the warmup events); there is no eager
iteration-count validation. -/
theorem C4_amended_late_failure (rows : List Row) (lT cT : Nat → ℚ)
    (warm : Nat) :
    (runPandas rows lT cT 0 warm).2 = Except.error "StatisticsError" ∧
    (runPandas rows lT cT 0 warm).1 = pandasWarmTrace warm ∧
    summaryStats [] = Except.error "StatisticsError" := by
  refine ⟨rfl, ?_, rfl⟩
  show pandasWarmTrace warm ++ (List.range 0).flatMap (pandasIterTrace 0)
      = pandasWarmTrace warm
  simp

/-- Counterexample to claim C6: with a schedule failing at measured iteration
1 of 3 (after iteration 0 completed and recorded its samples), either path's
run outcome is the raw propagated exception: `preservedTimes` recovers no
timing samples from it — the pre-failure samples are lost, not preserved in a
`MeasurementFailed` error. Iteration 0's events in the traces show that a
sample-producing iteration did complete before the failure on each path. -/
theorem C6_counterexample :
    (runPandasF schedFailAt1 (fun _ => 1) (fun _ => 1) 3).2
      = Except.error "ConnectionError" ∧
    preservedTimes (runPandasF schedFailAt1 (fun _ => 1) (fun _ => 1) 3).2
      = none ∧
    Ev.load 0 ∈ (runPandasF schedFailAt1 (fun _ => 1) (fun _ => 1) 3).1 ∧
    (runClickhouseF schedFailAt1 (fun _ => 1) (fun _ => 1) 3).2
      = Except.error "ConnectionError" ∧
    preservedTimes (runClickhouseF schedFailAt1 (fun _ => 1) (fun _ => 1) 3).2
      = none ∧
    Ev.query 0 ∈ (runClickhouseF schedFailAt1 (fun _ => 1) (fun _ => 1) 3).1 := by
  refine ⟨rfl, rfl, ?_, rfl, rfl, ?_⟩
  · simp [runPandasF, pandasLoopF, schedFailAt1]
  · simp [runClickhouseF, chLoopF, schedFailAt1]

/-- Claim C6 as amended: if a measured iteration of either path fails, the
exception propagates at once — the path is aborted (no event of any later
iteration occurs, and the failing run never writes output), so a failing
iteration is never silently dropped — but the timing samples collected in
earlier iterations are discarded with the raised exception, not preserved. -/
theorem C6_amended_abort_loses_samples (sched : Nat → Except String Unit)
    (lT cT qT sT : Nat → ℚ) (iters j : Nat) (e : String)
    (hj : j < iters) (he : sched j = Except.error e)
    (hok : ∀ m, m < j → sched m = Except.ok ()) :
    (runPandasF sched lT cT iters).2 = Except.error e ∧
    preservedTimes (runPandasF sched lT cT iters).2 = none ∧
    (∀ i, j < i → Ev.load i ∉ (runPandasF sched lT cT iters).1) ∧
    Ev.writeOut ∉ (runPandasF sched lT cT iters).1 ∧
    (runClickhouseF sched qT sT iters).2 = Except.error e ∧
    preservedTimes (runClickhouseF sched qT sT iters).2 = none ∧
    (∀ i, j < i → Ev.query i ∉ (runClickhouseF sched qT sT iters).1) ∧
    Ev.writeOut ∉ (runClickhouseF sched qT sT iters).1 := by
  have hmain := pandasLoopF_error_shape sched lT cT iters j e he iters 0 [] [] []
    (by omega) (by omega) hj (fun m _ hm2 => hok m hm2)
  have hch := chLoopF_error_shape sched qT sT iters j e he iters 0 [] [] []
    (by omega) (by omega) hj (fun m _ hm2 => hok m hm2)
  refine ⟨hmain.1, ?_, ?_, ?_, hch.1, ?_, ?_, ?_⟩
  · have h2 : (runPandasF sched lT cT iters).2 = Except.error e := hmain.1
    rw [h2]
    rfl
  · intro i hi hmem
    have hidx := (hmain.2 (Ev.load i) hmem).1
    simp only [evIndex] at hidx
    omega
  · intro hmem
    exact (hmain.2 Ev.writeOut hmem).2 rfl
  · have h2 : (runClickhouseF sched qT sT iters).2 = Except.error e := hch.1
    rw [h2]
    rfl
  · intro i hi hmem
    have hidx := (hch.2 (Ev.query i) hmem).1
    simp only [evIndex] at hidx
    omega
  · intro hmem
    exact (hch.2 Ev.writeOut hmem).2 rfl

/-- Witness for the amended C6 at the concrete failing schedule, on both
paths. -/
theorem C6_amended_abort_loses_samples_witness :
    (runPandasF schedFailAt1 (fun _ => 2) (fun _ => 3) 3).2
      = Except.error "ConnectionError" ∧
    preservedTimes (runPandasF schedFailAt1 (fun _ => 2) (fun _ => 3) 3).2
      = none ∧
    Ev.load 2 ∉ (runPandasF schedFailAt1 (fun _ => 2) (fun _ => 3) 3).1 ∧
    Ev.writeOut ∉ (runPandasF schedFailAt1 (fun _ => 2) (fun _ => 3) 3).1 ∧
    (runClickhouseF schedFailAt1 (fun _ => 4) (fun _ => 5) 3).2
      = Except.error "ConnectionError" ∧
    preservedTimes (runClickhouseF schedFailAt1 (fun _ => 4) (fun _ => 5) 3).2
      = none ∧
    Ev.query 2 ∉ (runClickhouseF schedFailAt1 (fun _ => 4) (fun _ => 5) 3).1 ∧
    Ev.writeOut ∉ (runClickhouseF schedFailAt1 (fun _ => 4) (fun _ => 5) 3).1 :=
  have h := C6_amended_abort_loses_samples schedFailAt1 (fun _ => 2)
    (fun _ => 3) (fun _ => 4) (fun _ => 5) 3 1 "ConnectionError" (by decide) rfl
    (fun m hm => by
      have hm0 : m = 0 := Nat.lt_one_iff.mp hm
      rw [hm0]
      rfl)
  ⟨h.1, h.2.1, h.2.2.1 2 (by decide), h.2.2.2.1, h.2.2.2.2.1,
    h.2.2.2.2.2.1, h.2.2.2.2.2.2.1 2 (by decide), h.2.2.2.2.2.2.2⟩

/-- Counterexample to claim C7: at a zero baseline mean the speedup
computation raises `ZeroDivisionError` — the division is attempted and
crashes; the ratio is not flagged as undefined. -/
theorem C7_counterexample :
    speedupRatio 1 0 = Except.error "ZeroDivisionError" := rfl

/-- Claim C7 as amended: the report computes the speedup ratio as (candidate
total mean) / (baseline total mean) by plain division whenever the baseline is
nonzero; when the baseline mean is zero, the division raises
`ZeroDivisionError` and aborts the report instead of flagging the ratio as
undefined. -/
theorem C7_amended_division_crashes :
    (∀ c b : ℚ, b ≠ 0 → speedupRatio c b = Except.ok (c / b)) ∧
    ∀ c : ℚ, speedupRatio c 0 = Except.error "ZeroDivisionError" := by
  constructor
  · intro c b hb
    unfold speedupRatio
    rw [if_neg hb]
  · intro c
    rfl

/-- Witness for the amended C7 at candidate 3, baselines 2 and 0. -/
theorem C7_amended_division_crashes_witness :
    speedupRatio 3 2 = Except.ok (3 / 2) ∧
    speedupRatio 3 0 = Except.error "ZeroDivisionError" :=
  ⟨C7_amended_division_crashes.1 3 2 (by norm_num),
    C7_amended_division_crashes.2 3⟩

/-- Counterexample to claim C9: instantiating the claimed header template
`<group_key_column>,mean_<value>,median_<value>,variance_<value>` with the
value column `fare_amount` gives `mean_fare_amount,...`, but the written
header uses the truncated prefix `fare`. -/
theorem C9_counterexample :
    csvHeader
      ≠ "passenger_count,mean_fare_amount,median_fare_amount,variance_fare_amount" := by
  decide

/-- Claim C9 as amended: both paths' persisted output files carry the header
row `passenger_count,mean_fare,median_fare,variance_fare` (the value-column
prefix is `fare`, not the full column name `fare_amount`), followed by exactly
one row per distinct group-key value in ascending group-key order. -/
theorem C9_amended_output_format :
    csvHeader = "passenger_count,mean_fare,median_fare,variance_fare" ∧
    chCsvHeader = csvHeader ∧
    ∀ rows : List Row,
      (writeResultCsv (pandasCompute rows)).1 = csvHeader ∧
      (pandasCompute rows).map AggRow.key = sortedKeys rows ∧
      (clickhouseQueryResult rows).map AggRow.key = sortedKeys rows ∧
      List.Sorted (· ≤ ·) (sortedKeys rows) ∧
      (sortedKeys rows).Nodup ∧
      ∀ k : Int, k ∈ sortedKeys rows ↔ k ∈ rows.map Row.passenger_count := by
  refine ⟨by decide, rfl, ?_⟩
  intro rows
  refine ⟨rfl, ?_, ?_, ?_, ?_, ?_⟩
  · unfold pandasCompute
    rw [List.map_map]
    exact List.map_id _
  · unfold clickhouseQueryResult sortedKeys
    rw [List.map_map]
    exact List.map_id _
  · exact List.sorted_insertionSort _ _
  · exact (List.perm_insertionSort _ _).nodup_iff.mpr (List.nodup_dedup _)
  · intro k
    unfold sortedKeys
    rw [(List.perm_insertionSort _ _).mem_iff, List.mem_dedup]

end Benchmark
